import Mathlib

set_option maxHeartbeats 1000000

namespace CityPulse

/-!
Shallow embedding of the CityPulse (EcoSense) air-quality dashboard and of its
ETL pipeline, for checking the natural-language specification against the code.

Frontend sources embedded directly: src/types.ts, src/App.tsx (stats useMemo),
src/unnamed/part_000 (RiskHeatmap), src/components/ETLLogs.tsx
(calculatePearsonCorrelation).  The Python ETL (services/etl.py) is not part of
the repository snapshot; the pipeline components it implements (Series Aligner,
Outlier Scrubber, Forecast Model, Upsert Loader) are modelled from the spec, as
marked on each definition.

Numeric convention: JavaScript and Python floats are idealised as exact
rationals (and, for the Pearson coefficient which takes a square root, as
reals); null is Option.none.
-/

/-- One row of the dashboard data set (src/types.ts, UnifiedDataPoint).
The displayTime field is derived display formatting and is omitted;
the timestamp is idealised as an integer (milliseconds since epoch, the value
of new Date(ts).getTime()). -/
structure UnifiedDataPoint where
  timestamp : Int
  pm10 : Option ℚ
  pm25 : Option ℚ
  temperature : Option ℚ
  windSpeed : Option ℚ
  humidity : Option ℚ
  predictedPM25 : Option ℚ
  deriving Repr, DecidableEq

/-- src/App.tsx line 63: data.filter(d => d.pm25 === null).length -/
def missingPM (data : List UnifiedDataPoint) : ℕ :=
  (data.filter (fun d => d.pm25.isNone)).length

/-- src/App.tsx line 64 (the numeric value inside Math.max; the source applies
.toFixed(0) only to format the number for display):
Math.max(0, 100 - (missingPM / data.length * 100)) -/
def qualityScoreOf (data : List UnifiedDataPoint) : ℚ :=
  max 0 (100 - ((missingPM data : ℚ) / (data.length : ℚ) * 100))

/-- src/App.tsx lines 66-72: count of adjacent index pairs whose later
timestamp is less than or equal to the earlier one. -/
def timestampIssues : List UnifiedDataPoint → ℕ
  | a :: b :: rest =>
      (if b.timestamp ≤ a.timestamp then 1 else 0) + timestampIssues (b :: rest)
  | _ => 0

/-- src/App.tsx lines 77-81: the test applied to one adjacent pair of pm25
values: prev !== null, curr !== null, prev > 0, and
Math.abs((curr - prev) / prev) > 0.5. -/
def anomalyPair (prev curr : Option ℚ) : Bool :=
  match prev, curr with
  | some p, some c => decide (0 < p) && decide (1 / 2 < |(c - p) / p|)
  | _, _ => false

/-- src/App.tsx lines 75-83: the for-loop over i = 1 .. data.length - 1
incrementing anomalyCount when anomalyPair holds of pm25 at i-1 and i. -/
def anomalyCount : List UnifiedDataPoint → ℕ
  | a :: b :: rest =>
      (if anomalyPair a.pm25 b.pm25 then 1 else 0) + anomalyCount (b :: rest)
  | _ => 0

/-- The fields of the stats object computed by the App stats useMemo that the
claims are about (src/App.tsx lines 85-95). -/
structure AppStats where
  missingPM : ℕ
  qualityScore : ℚ
  timestampIssues : ℕ
  anomalyCount : ℕ
  totalRows : ℕ
  deriving Repr, DecidableEq

/-- src/App.tsx lines 48-96: the stats useMemo.  Line 49 returns null when
data.length === 0; otherwise the quality metrics are computed. -/
def appStats (data : List UnifiedDataPoint) : Option AppStats :=
  if data.length = 0 then none
  else
    some { missingPM := missingPM data
           qualityScore := qualityScoreOf data
           timestampIssues := timestampIssues data
           anomalyCount := anomalyCount data
           totalRows := data.length }

/-- Specification-side anomaly predicate, transcribed from the claim wording:
both pm25 values non-null, the earlier value strictly greater than 0, and the
relative change |curr - prev| / prev exceeds 0.5; a pair with a null or
non-positive earlier value is never counted. -/
def anomalySpecPair (prev curr : Option ℚ) : Bool :=
  match prev, curr with
  | some p, some c => if 0 < p then decide (1 / 2 < |c - p| / p) else false
  | some _, none => false
  | none, _ => false

/-- Specification-side anomaly count: the number of adjacent pairs of the
sequence satisfying anomalySpecPair. -/
def adjacentAnomalies (data : List UnifiedDataPoint) : ℕ :=
  (data.zip data.tail).countP (fun q => anomalySpecPair q.1.pm25 q.2.pm25)

/-- JavaScript truthiness of a nullable number: null and 0 are falsy
(NaN does not occur for stored pm25 values). -/
def jsTruthy (v : Option ℚ) : Bool :=
  match v with
  | none => false
  | some q => decide (q ≠ 0)

/-- JavaScript Math.round: round half toward positive infinity. -/
def jsRound (q : ℚ) : ℤ := ⌊q + 1 / 2⌋

/-- src/unnamed/part_000 line 202 (RiskHeatmap cell body):
d.pm25 ? Math.round(d.pm25) : the placeholder dash. -/
def heatCellText (pm25 : Option ℚ) : String :=
  if jsTruthy pm25 then toString (jsRound (pm25.getD 0)) else "-"

/-- src/unnamed/part_000 lines 175-181 (RiskHeatmap getRiskClass). -/
def getRiskClass (pm25 : Option ℚ) : String :=
  match pm25 with
  | none => "bg-slate-100 text-slate-300"
  | some q =>
    if q < 12 then "bg-emerald-100 text-emerald-700 border-emerald-200"
    else if q < 35.5 then "bg-yellow-100 text-yellow-700 border-yellow-200"
    else if q < 55.5 then "bg-orange-100 text-orange-700 border-orange-200"
    else "bg-red-100 text-red-700 border-red-200"

/-!
The ETL pipeline (services/etl.py) is documented in src/docs/PIPELINE.md but
its code is not part of the repository snapshot; the following definitions are
modelled from the spec (sections 4.1 to 4.5, 6 and 7).
-/

/-- Modelled from the spec: the pipeline error taxonomy of section 7
(services/etl.py error conditions).  InsufficientTrainingData is a documented
degraded mode, not an error, so it does not appear here. -/
inductive EtlError where
  | malformedSourceData
  | storageUnavailable
  deriving Repr, DecidableEq

/-- Modelled from the spec: the Aligned Row of section 3 (the join of a
weather sample and an air-quality sample on one timestamp, all five measured
fields, each nullable).  Timestamps are idealised as the canonical UTC instant
value obtained from parsing the ISO-like source string. -/
structure AlignedRow where
  time : Int
  temperature : Option ℚ
  humidity : Option ℚ
  wind_speed : Option ℚ
  pm10 : Option ℚ
  pm25 : Option ℚ
  deriving Repr, DecidableEq

/-- The weather half of a sample, keyed by timestamp in a weather collection. -/
structure WeatherFields where
  temperature : Option ℚ
  humidity : Option ℚ
  wind_speed : Option ℚ
  deriving Repr, DecidableEq

/-- The air-quality half of a sample, keyed by timestamp. -/
structure AirFields where
  pm10 : Option ℚ
  pm25 : Option ℚ
  deriving Repr, DecidableEq

/-- First-match lookup in an association list (a collection keyed by its first
component). -/
def lookupA {κ α : Type} [DecidableEq κ] (k : κ) : List (κ × α) → Option α
  | [] => none
  | (k2, v) :: rest => if k2 = k then some v else lookupA k rest

/-- Modelled from the spec, section 4.1 (Series Aligner): one output row per
timestamp present in both collections, iterated in the order of the weather
collection; rows whose timestamp appears in only one collection are dropped
silently. -/
def alignSeries (w : List (Int × WeatherFields)) (aq : List (Int × AirFields)) :
    List AlignedRow :=
  w.filterMap (fun p =>
    (lookupA p.1 aq).map (fun af =>
      { time := p.1
        temperature := p.2.temperature
        humidity := p.2.humidity
        wind_speed := p.2.wind_speed
        pm10 := af.pm10
        pm25 := af.pm25 }))

/-- Modelled from the spec, section 6: the raw weather payload is a
parallel-array time series; a missing array is represented by none
(fetch_open_meteo_data weather response, hourly part). -/
structure RawWeather where
  time : Option (List Int)
  temperature_2m : Option (List (Option ℚ))
  relative_humidity_2m : Option (List (Option ℚ))
  wind_speed_10m : Option (List (Option ℚ))
  deriving Repr, DecidableEq

/-- Modelled from the spec, section 6: the raw air-quality payload
(fetch_open_meteo_data air-quality response, hourly part). -/
structure RawAir where
  time : Option (List Int)
  pm10 : Option (List (Option ℚ))
  pm2_5 : Option (List (Option ℚ))
  deriving Repr, DecidableEq

/-- A raw weather payload is well-formed when every expected array is present,
the metric arrays match the time array in length, and the series is nonempty. -/
def wellFormedWeather (w : RawWeather) : Bool :=
  match w.time, w.temperature_2m, w.relative_humidity_2m, w.wind_speed_10m with
  | some ts, some te, some hu, some wi =>
      decide (ts ≠ []) && decide (te.length = ts.length) &&
        decide (hu.length = ts.length) && decide (wi.length = ts.length)
  | _, _, _, _ => false

/-- A raw air-quality payload is well-formed when every expected array is
present, lengths match, and the series is nonempty. -/
def wellFormedAir (a : RawAir) : Bool :=
  match a.time, a.pm10, a.pm2_5 with
  | some ts, some p10, some p25 =>
      decide (ts ≠ []) && decide (p10.length = ts.length) &&
        decide (p25.length = ts.length)
  | _, _, _ => false

/-- Four-way zip of parallel arrays, truncating at the shortest. -/
def zip4 {α β γ δ : Type} : List α → List β → List γ → List δ → List (α × β × γ × δ)
  | a :: as, b :: bs, c :: cs, d :: ds => (a, b, c, d) :: zip4 as bs cs ds
  | _, _, _, _ => []

/-- Three-way zip of parallel arrays, truncating at the shortest. -/
def zip3 {α β γ : Type} : List α → List β → List γ → List (α × β × γ)
  | a :: as, b :: bs, c :: cs => (a, b, c) :: zip3 as bs cs
  | _, _, _ => []

/-- Row-orienting the weather payload: the column arrays zipped into a
timestamp-keyed collection. -/
def weatherSeries (w : RawWeather) : List (Int × WeatherFields) :=
  (zip4 (w.time.getD []) (w.temperature_2m.getD [])
      (w.relative_humidity_2m.getD []) (w.wind_speed_10m.getD [])).map
    (fun q => (q.1, ⟨q.2.1, q.2.2.1, q.2.2.2⟩))

/-- Row-orienting the air-quality payload. -/
def airSeries (a : RawAir) : List (Int × AirFields) :=
  (zip3 (a.time.getD []) (a.pm10.getD []) (a.pm2_5.getD [])).map
    (fun q => (q.1, ⟨q.2.1, q.2.2⟩))

/-- Modelled from the spec, sections 4.1 and 7 (transform_data of
services/etl.py): if either input collection is empty or malformed, signal
MalformedSourceData and produce no partially aligned output; otherwise align
the two row-oriented series. -/
def transform_data (w : RawWeather) (a : RawAir) :
    Except EtlError (List AlignedRow) :=
  if wellFormedWeather w && wellFormedAir a then
    Except.ok (alignSeries (weatherSeries w) (airSeries a))
  else
    Except.error EtlError.malformedSourceData

/-- Specification-side well-formedness of the weather payload, transcribed
from the claim wording: the expected arrays are all present, none of the
metric arrays mismatches the time array in length, and the collection is not
empty. -/
def weatherIntact (w : RawWeather) : Prop :=
  ∃ ts te hu wi, w.time = some ts ∧ w.temperature_2m = some te ∧
    w.relative_humidity_2m = some hu ∧ w.wind_speed_10m = some wi ∧
    ts ≠ [] ∧ te.length = ts.length ∧ hu.length = ts.length ∧
    wi.length = ts.length

/-- Specification-side well-formedness of the air-quality payload. -/
def airIntact (a : RawAir) : Prop :=
  ∃ ts p10 p25, a.time = some ts ∧ a.pm10 = some p10 ∧ a.pm2_5 = some p25 ∧
    ts ≠ [] ∧ p10.length = ts.length ∧ p25.length = ts.length

/-- Modelled from the spec, section 7: each city is transformed independently
of the others (the main loop of services/etl.py catches per-city failures). -/
def runAllCities (inputs : List (RawWeather × RawAir)) :
    List (Except EtlError (List AlignedRow)) :=
  inputs.map (fun p => transform_data p.1 p.2)

/-- Modelled from the spec, section 4.2 (Outlier Scrubber field rule): a
negative particulate value becomes null; null and non-negative values pass
through. -/
def cleansePM (v : Option ℚ) : Option ℚ :=
  match v with
  | some q => if q < 0 then none else some q
  | none => none

/-- Modelled from the spec, section 4.2: the per-row scrub; pm10 and pm25 are
cleansed, all other fields pass through unchanged. -/
def scrubRow (r : AlignedRow) : AlignedRow :=
  { r with pm10 := cleansePM r.pm10, pm25 := cleansePM r.pm25 }

/-- Modelled from the spec, section 4.2: the Outlier Scrubber, a pure
row-independent transform over the aligned sequence. -/
def scrubRows (rows : List AlignedRow) : List AlignedRow :=
  rows.map scrubRow

/-- A fitted linear model: intercept and one coefficient per predictor
(temperature, wind_speed, humidity). -/
structure LinModel where
  intercept : ℚ
  coefTemperature : ℚ
  coefWindSpeed : ℚ
  coefHumidity : ℚ
  deriving Repr, DecidableEq

/-- Applying a fitted linear model to one fully-imputed predictor triple. -/
def applyModel (m : LinModel) (t w h : ℚ) : ℚ :=
  m.intercept + m.coefTemperature * t + m.coefWindSpeed * w + m.coefHumidity * h

/-- Modelled from the spec, section 4.4 step 1: a row belongs to the training
subset when temperature, wind_speed, humidity and pm25 are all non-null. -/
def isTrainRow (r : AlignedRow) : Bool :=
  r.temperature.isSome && r.wind_speed.isSome && r.humidity.isSome && r.pm25.isSome

/-- Modelled from the spec, section 4.4 step 1: the training subset. -/
def trainSubset (rows : List AlignedRow) : List AlignedRow :=
  rows.filter isTrainRow

/-- Arithmetic mean of a rational list (0 for the empty list, which the
pipeline never reaches because of the size-10 threshold). -/
def meanOf (l : List ℚ) : ℚ := l.sum / l.length

/-- The mean of one nullable column over a row list, ignoring nulls. -/
def colMean (rows : List AlignedRow) (f : AlignedRow → Option ℚ) : ℚ :=
  meanOf (rows.filterMap f)

/-- Rounding to 2 decimal places (pandas Series.round(2)). -/
def round2 (q : ℚ) : ℚ := (round (q * 100) : ℤ) / 100

/-- An aligned row together with its forecast column. -/
structure PredictedRow extends AlignedRow where
  predicted_pm25 : Option ℚ
  deriving Repr, DecidableEq

/-- Modelled from the spec, section 4.4 (train_and_predict_ml of
services/etl.py): fewer than 10 training rows means no model and a null
prediction on every row; otherwise the model fitted on the training subset is
applied to every row of the full sequence, missing predictor values imputed
with that predictor's training-subset mean, and the prediction rounded to 2
decimal places.  The ordinary-least-squares fit itself is an external
primitive of the source (sklearn LinearRegression) whose coefficients the spec
leaves implementation-defined, so it is a parameter here; no claim depends on
the fitted values. -/
def train_and_predict_ml (fit : List AlignedRow → LinModel)
    (rows : List AlignedRow) : List PredictedRow :=
  let train := trainSubset rows
  if train.length < 10 then
    rows.map (fun r => { toAlignedRow := r, predicted_pm25 := none })
  else
    let m := fit train
    let mt := colMean train AlignedRow.temperature
    let mw := colMean train AlignedRow.wind_speed
    let mh := colMean train AlignedRow.humidity
    rows.map (fun r =>
      { toAlignedRow := r
        predicted_pm25 := some (round2 (applyModel m (r.temperature.getD mt)
          (r.wind_speed.getD mw) (r.humidity.getD mh))) })

/-- City identity as the Loader receives it (name, country code,
coordinates). -/
structure CityInfo where
  name : String
  country_code : String
  latitude : ℚ
  longitude : ℚ
  deriving Repr, DecidableEq

/-- One dim_city record: the serial city_id plus the city attributes
(src/unnamed/part_004 lines 2-8). -/
structure CityRec where
  city_id : ℕ
  country_code : String
  latitude : ℚ
  longitude : ℚ
  deriving Repr, DecidableEq

/-- The weather fact columns (src/unnamed/part_004 lines 19-28). -/
structure WeatherVals where
  temperature : Option ℚ
  humidity : Option ℚ
  wind_speed : Option ℚ
  deriving Repr, DecidableEq

/-- The air-quality fact columns (src/unnamed/part_004 lines 31-40). -/
structure AirVals where
  pm10 : Option ℚ
  pm25 : Option ℚ
  predicted_pm25 : Option ℚ
  deriving Repr, DecidableEq

/-- The stored state: the city dimension keyed by unique name (with the next
serial id), and the two fact tables keyed by (city_id, timestamp)
(src/unnamed/part_004). -/
structure DB where
  dim_city : List (String × CityRec)
  next_id : ℕ
  fact_weather : List ((ℕ × Int) × WeatherVals)
  fact_air_quality : List ((ℕ × Int) × AirVals)
  deriving Repr, DecidableEq

/-- The empty store. -/
def emptyDB : DB := ⟨[], 0, [], []⟩

/-- Insert-or-update at a key: overwrite in place when the key exists, append
otherwise (the ON CONFLICT DO UPDATE semantics of one batched row). -/
def upsertA {κ α : Type} [DecidableEq κ] (k : κ) (v : α) :
    List (κ × α) → List (κ × α)
  | [] => [(k, v)]
  | (k2, v2) :: rest =>
      if k2 = k then (k, v) :: rest else (k2, v2) :: upsertA k v rest

/-- One batched upsert statement: every (key, value) pair of the batch
upserted in order. -/
def upsertAll {κ α : Type} [DecidableEq κ] (kvs : List (κ × α))
    (t : List (κ × α)) : List (κ × α) :=
  kvs.foldl (fun acc kv => upsertA kv.1 kv.2 acc) t

/-- Modelled from the spec, section 4.5 step 1 (INSERT ... ON CONFLICT (name)
DO NOTHING, then resolve city_id): insert the city if its name is absent,
no-op if present; either way resolve a stable city identifier. -/
def resolveCity (db : DB) (c : CityInfo) : DB × ℕ :=
  match lookupA c.name db.dim_city with
  | some rec => (db, rec.city_id)
  | none =>
      ({ db with
          dim_city := db.dim_city ++
            [(c.name, ⟨db.next_id, c.country_code, c.latitude, c.longitude⟩)]
          next_id := db.next_id + 1 },
        db.next_id)

/-- The weather fact row extracted from one pipeline row. -/
def weatherKV (cid : ℕ) (r : PredictedRow) : (ℕ × Int) × WeatherVals :=
  ((cid, r.time), ⟨r.temperature, r.humidity, r.wind_speed⟩)

/-- The air-quality fact row extracted from one pipeline row. -/
def airKV (cid : ℕ) (r : PredictedRow) : (ℕ × Int) × AirVals :=
  ((cid, r.time), ⟨r.pm10, r.pm25, r.predicted_pm25⟩)

/-- Modelled from the spec, section 4.5 (load_to_db of services/etl.py): one
logical unit of work per city; resolve the city in the dimension, then batch
upsert the weather facts and the air-quality facts keyed by
(city_id, timestamp). -/
def load_to_db (db : DB) (c : CityInfo) (rows : List PredictedRow) : DB :=
  let r := resolveCity db c
  { r.1 with
      fact_weather := upsertAll (rows.map (weatherKV r.2)) r.1.fact_weather
      fact_air_quality :=
        upsertAll (rows.map (airKV r.2)) r.1.fact_air_quality }

/-- A sequence of per-city loads applied to a store. -/
def applyLoads (batches : List (CityInfo × List PredictedRow)) (db : DB) : DB :=
  batches.foldl (fun d b => load_to_db d b.1 b.2) db

/-- The uniqueness invariant: at most one row per (city_id, timestamp) pair in
each fact table. -/
def dbKeysUnique (db : DB) : Prop :=
  (db.fact_weather.map Prod.fst).Nodup ∧
    (db.fact_air_quality.map Prod.fst).Nodup

/-- The per-city unit of work as its three sequential storage statements
(resolve city, batch weather upsert, batch air-quality upsert), operating on a
working state that carries the resolved city identifier. -/
def txStep (c : CityInfo) (rows : List PredictedRow) : ℕ → DB × ℕ → DB × ℕ
  | 0, s => resolveCity s.1 c
  | 1, s =>
      ({ s.1 with
          fact_weather := upsertAll (rows.map (weatherKV s.2)) s.1.fact_weather },
        s.2)
  | 2, s =>
      ({ s.1 with
          fact_air_quality :=
            upsertAll (rows.map (airKV s.2)) s.1.fact_air_quality },
        s.2)
  | _, s => s

/-- Modelled from the spec, section 4.5 failure semantics and section 7
(StorageUnavailable): the per-city unit of work executed statement by
statement inside one transaction; fails i tells whether the storage backend
fails at statement i.  A failure anywhere aborts the unit, and the transaction
result is discarded (rolled back) rather than partially applied. -/
def runTx (fails : ℕ → Bool) (db : DB) (c : CityInfo)
    (rows : List PredictedRow) : Except EtlError DB :=
  (List.foldlM
    (fun s i =>
      if fails i then Except.error EtlError.storageUnavailable
      else Except.ok (txStep c rows i s))
    ((db, 0) : DB × ℕ) (List.range 3)).map Prod.fst

/-- The state visible after the per-city unit of work: the committed state on
success, the untouched prior state on failure (rollback). -/
def loadOutcome (fails : ℕ → Bool) (db : DB) (c : CityInfo)
    (rows : List PredictedRow) : DB :=
  match runTx fails db c rows with
  | Except.ok s => s
  | Except.error _ => db

/-- src/components/ETLLogs.tsx lines 61-74 (calculatePearsonCorrelation):
the computational Pearson formula over two parallel arrays, with an early 0
for the empty input and a 0 guard on a zero denominator. -/
noncomputable def calculatePearsonCorrelation (x y : List ℝ) : ℝ :=
  let n : ℝ := x.length
  if x.length = 0 then 0
  else
    let sumX := x.sum
    let sumY := y.sum
    let sumXY := ((x.zip y).map (fun p => p.1 * p.2)).sum
    let sumX2 := (x.map (fun v => v * v)).sum
    let sumY2 := (y.map (fun v => v * v)).sum
    let numerator := n * sumXY - sumX * sumY
    let denominator :=
      Real.sqrt ((n * sumX2 - sumX * sumX) * (n * sumY2 - sumY * sumY))
    if denominator = 0 then 0 else numerator / denominator

/-- The squared variance denominator of the computational Pearson formula
(the quantity under the square root in the source). -/
noncomputable def pearsonDenomSq (x y : List ℝ) : ℝ :=
  ((x.length : ℝ) * (x.map (fun v => v * v)).sum - x.sum * x.sum) *
    ((x.length : ℝ) * (y.map (fun v => v * v)).sum - y.sum * y.sum)

/-- The standard (textbook, mean-centered) Pearson coefficient: covariance of
the two series divided by the product of their standard deviations. -/
noncomputable def pearsonCentered (x y : List ℝ) : ℝ :=
  let n : ℝ := x.length
  let mx := x.sum / n
  let my := y.sum / n
  let cov := ((x.zip y).map (fun p => (p.1 - mx) * (p.2 - my))).sum
  let vx := (x.map (fun v => (v - mx) * (v - mx))).sum
  let vy := (y.map (fun v => (v - my) * (v - my))).sum
  cov / (Real.sqrt vx * Real.sqrt vy)

/-!
Concrete sample data used by the witness theorems.
-/

/-- A data point whose pm25 is missing (null). -/
def samplePointMissing : UnifiedDataPoint :=
  ⟨1, some 20, none, some 10, some 5, some 50, none⟩

/-- A data point whose pm25 is present. -/
def samplePointPresent : UnifiedDataPoint :=
  ⟨2, some 22, some 14, some 12, some 4, some 55, none⟩

/-- The weather collection of the scenario in spec section 8. -/
def sampleWeather : List (Int × WeatherFields) :=
  [(1, ⟨some 10, some 50, some 5⟩), (2, ⟨some 12, some 55, some 4⟩)]

/-- The air-quality collection of the scenario in spec section 8. -/
def sampleAir : List (Int × AirFields) :=
  [(1, ⟨some 20, some (-5)⟩), (2, ⟨some 22, some 14⟩)]

/-- A raw weather payload missing its time array (malformed). -/
def sampleRawWeatherBad : RawWeather := ⟨none, some [], some [], some []⟩

/-- A well-formed raw weather payload. -/
def sampleRawWeatherGood : RawWeather :=
  ⟨some [1, 2], some [some 10, some 12], some [some 50, some 55],
    some [some 5, some 4]⟩

/-- A well-formed raw air-quality payload. -/
def sampleRawAirGood : RawAir :=
  ⟨some [1, 2], some [some 20, some 22], some [some (-5), some 14]⟩

/-- An aligned row all of whose training fields are present. -/
def fullRow (t : Int) : AlignedRow := ⟨t, some 1, some 2, some 3, some 4, some 5⟩

/-- An aligned row with a negative pm25 sentinel. -/
def negRow : AlignedRow := ⟨1, some 10, some 50, some 5, some 20, some (-5)⟩

/-- Nine full training rows (below the forecast threshold). -/
def rows9 : List AlignedRow := (List.range 9).map (fun i => fullRow i)

/-- Ten full training rows (at the forecast threshold). -/
def rows10 : List AlignedRow := (List.range 10).map (fun i => fullRow i)

/-- A constant placeholder fit, standing in for the external OLS primitive in
concrete instantiations. -/
def fitZero : List AlignedRow → LinModel := fun _ => ⟨0, 0, 0, 0⟩

/-- A sample city identity. -/
def sampleCity : CityInfo := ⟨"X", "RU", 0, 0⟩

/-- A sample loaded row at timestamp t with pm25 value p. -/
def samplePredRow (t : Int) (p : ℚ) : PredictedRow :=
  ⟨⟨t, some 1, some 2, some 3, some 4, some p⟩, none⟩

/-!
Theorems.
-/

/-- The code's per-pair anomaly test agrees with the claim-side one (the only
difference is |(c - p) / p| against |c - p| / p, equal for p > 0). -/
theorem anomalyPair_eq_spec (prev curr : Option ℚ) :
    anomalyPair prev curr = anomalySpecPair prev curr := by
  cases prev with
  | none => rfl
  | some p =>
    cases curr with
    | none => rfl
    | some c =>
      simp only [anomalyPair, anomalySpecPair]
      by_cases hp : 0 < p
      · simp [hp, abs_div, abs_of_pos hp]
      · simp [hp]

/-- C8: for every row sequence, the stats anomalyCount loop counts exactly the
adjacent pairs in which both pm25 values are non-null, the earlier value is
strictly positive, and the relative change |curr - prev| / prev exceeds 0.5;
pairs with a null or non-positive earlier value are never counted, so the
guarded division never divides by zero. -/
theorem anomaly_count_correct (data : List UnifiedDataPoint) :
    anomalyCount data = adjacentAnomalies data := by
  unfold adjacentAnomalies
  induction data with
  | nil => rfl
  | cons a rest ih =>
    cases rest with
    | nil => rfl
    | cons b rest2 =>
      rw [anomalyCount]
      rw [ih]
      simp only [List.tail_cons, List.zip_cons_cons, List.countP_cons,
        anomalyPair_eq_spec]
      omega

/-- C9: in the RiskHeatmap, a data point whose pm25 is exactly 0 is rendered
with the placeholder dash, the same text as a null pm25, because the displayed
value is chosen by JavaScript truthiness, while the colour class treats 0 as a
valid excellent (emerald) reading, different from the no-data class of null:
for pm25 = 0 the displayed number and the displayed colour disagree about
whether a measurement exists. -/
theorem heatmap_zero_display_mismatch :
    heatCellText (some 0) = "-" ∧
    heatCellText none = "-" ∧
    getRiskClass (some 0) = "bg-emerald-100 text-emerald-700 border-emerald-200" ∧
    getRiskClass none = "bg-slate-100 text-slate-300" ∧
    getRiskClass (some 0) ≠ getRiskClass none := by
  refine ⟨by decide, rfl, by decide, rfl, by decide⟩

/-- C1 counterexample: for the empty row sequence (total_rows = 0) the stats
useMemo returns null, so no quality score is produced at all; the claimed
value of 100 for the empty input does not exist in the code. -/
theorem quality_score_empty_counterexample :
    appStats ([] : List UnifiedDataPoint) = none := rfl

/-- C1 (amended): for every nonempty scrubbed row sequence, the quality score
equals max(0, 100 - 100 * missing_target_count / total_rows), is between 0 and
100, and equals 100 whenever missing_target_count = 0; for the empty sequence
the stats object is null and no score is defined (rather than the score being
100). -/
theorem quality_score_amended (data : List UnifiedDataPoint) (h : data ≠ []) :
    ∃ s, appStats data = some s ∧
      s.qualityScore =
        max 0 (100 - 100 * (missingPM data : ℚ) / (data.length : ℚ)) ∧
      0 ≤ s.qualityScore ∧ s.qualityScore ≤ 100 ∧
      (missingPM data = 0 → s.qualityScore = 100) := by
  have hlen : data.length ≠ 0 := fun hl => h (List.length_eq_zero.mp hl)
  have happ : appStats data =
      some { missingPM := missingPM data, qualityScore := qualityScoreOf data,
             timestampIssues := timestampIssues data,
             anomalyCount := anomalyCount data, totalRows := data.length } := by
    simp [appStats, hlen]
  refine ⟨_, happ, ?_, ?_, ?_, ?_⟩
  · show qualityScoreOf data = _
    unfold qualityScoreOf
    congr 1
    ring
  · exact le_max_left 0 _
  · show qualityScoreOf data ≤ 100
    unfold qualityScoreOf
    have hdiv : (0 : ℚ) ≤ (missingPM data : ℚ) / (data.length : ℚ) * 100 := by
      positivity
    exact max_le (by norm_num) (by linarith)
  · intro hm
    show qualityScoreOf data = 100
    unfold qualityScoreOf
    rw [hm]
    norm_num

/-- C1 witness: the amended theorem instantiated at the two-row scenario of
spec section 8 (one of two rows missing pm25). -/
theorem quality_score_amended_witness :
    ∃ s, appStats [samplePointMissing, samplePointPresent] = some s ∧
      s.qualityScore = max 0 (100 -
        100 * (missingPM [samplePointMissing, samplePointPresent] : ℚ) /
          (([samplePointMissing, samplePointPresent] :
            List UnifiedDataPoint).length : ℚ)) ∧
      0 ≤ s.qualityScore ∧ s.qualityScore ≤ 100 ∧
      (missingPM [samplePointMissing, samplePointPresent] = 0 →
        s.qualityScore = 100) :=
  quality_score_amended [samplePointMissing, samplePointPresent] (by simp)

/-- Cleansing is idempotent on one nullable particulate value. -/
theorem cleansePM_idem (v : Option ℚ) : cleansePM (cleansePM v) = cleansePM v := by
  cases v with
  | none => rfl
  | some q =>
    simp only [cleansePM]
    by_cases hq : q < 0
    · simp [hq]
    · simp [hq]

/-- Whatever cleansing returns is null or non-negative. -/
theorem cleansePM_nonneg (v : Option ℚ) (q : ℚ) (h : cleansePM v = some q) :
    0 ≤ q := by
  cases v with
  | none => simp [cleansePM] at h
  | some p =>
    simp only [cleansePM] at h
    by_cases hp : p < 0
    · simp [hp] at h
    · simp [hp] at h
      exact h ▸ not_lt.mp hp

/-- C6: the Outlier Scrubber is a pure per-row transform: it nulls a negative
pm10 or pm25, passes null and non-negative particulate values and every other
field through unchanged, applying it twice equals applying it once, and after
scrubbing pm10 and pm25 are null or non-negative. -/
theorem scrubber_idempotent :
    (∀ rows, scrubRows (scrubRows rows) = scrubRows rows) ∧
    (∀ r : AlignedRow,
      (scrubRow r).time = r.time ∧
      (scrubRow r).temperature = r.temperature ∧
      (scrubRow r).humidity = r.humidity ∧
      (scrubRow r).wind_speed = r.wind_speed ∧
      (∀ q, r.pm10 = some q → q < 0 → (scrubRow r).pm10 = none) ∧
      (∀ q, r.pm10 = some q → ¬q < 0 → (scrubRow r).pm10 = some q) ∧
      (r.pm10 = none → (scrubRow r).pm10 = none) ∧
      (∀ q, r.pm25 = some q → q < 0 → (scrubRow r).pm25 = none) ∧
      (∀ q, r.pm25 = some q → ¬q < 0 → (scrubRow r).pm25 = some q) ∧
      (r.pm25 = none → (scrubRow r).pm25 = none)) ∧
    (∀ rows r, r ∈ scrubRows rows →
      (∀ q, r.pm10 = some q → 0 ≤ q) ∧ (∀ q, r.pm25 = some q → 0 ≤ q)) := by
  have hrow : ∀ r : AlignedRow, scrubRow (scrubRow r) = scrubRow r := by
    intro r
    cases r
    simp [scrubRow, cleansePM_idem]
  refine ⟨?_, ?_, ?_⟩
  · intro rows
    unfold scrubRows
    rw [List.map_map]
    exact List.map_congr_left (fun r _ => hrow r)
  · intro r
    refine ⟨rfl, rfl, rfl, rfl, ?_, ?_, ?_, ?_, ?_, ?_⟩
    · intro q hq hneg
      show cleansePM r.pm10 = none
      rw [hq]
      simp [cleansePM, hneg]
    · intro q hq hneg
      show cleansePM r.pm10 = some q
      rw [hq]
      simp [cleansePM, hneg]
    · intro hq
      show cleansePM r.pm10 = none
      rw [hq]
      rfl
    · intro q hq hneg
      show cleansePM r.pm25 = none
      rw [hq]
      simp [cleansePM, hneg]
    · intro q hq hneg
      show cleansePM r.pm25 = some q
      rw [hq]
      simp [cleansePM, hneg]
    · intro hq
      show cleansePM r.pm25 = none
      rw [hq]
      rfl
  · intro rows r hr
    unfold scrubRows at hr
    obtain ⟨r0, _, hr0⟩ := List.mem_map.mp hr
    subst hr0
    exact ⟨fun q hq => cleansePM_nonneg r0.pm10 q hq,
      fun q hq => cleansePM_nonneg r0.pm25 q hq⟩

/-- C6 witness: the scrubber instantiated on the scenario rows of spec
section 8 (a negative pm25 sentinel next to a valid row). -/
theorem scrubber_idempotent_witness :
    scrubRows (scrubRows [negRow, fullRow 2]) = scrubRows [negRow, fullRow 2] ∧
    (scrubRow negRow).pm25 = none ∧
    ((scrubRow negRow).pm10 = some 20 ∧ (scrubRow negRow).time = negRow.time) :=
  ⟨scrubber_idempotent.1 [negRow, fullRow 2],
    (scrubber_idempotent.2.1 negRow).2.2.2.2.2.2.2.1 (-5) rfl (by norm_num),
    (scrubber_idempotent.2.1 negRow).2.2.2.2.2.1 20 rfl (by norm_num),
    (scrubber_idempotent.2.1 negRow).1⟩

/-- Lookup succeeds exactly on the keys of the collection. -/
theorem lookupA_isSome_iff {κ α : Type} [DecidableEq κ] (k : κ)
    (l : List (κ × α)) : (lookupA k l).isSome = true ↔ k ∈ l.map Prod.fst := by
  induction l with
  | nil => simp [lookupA]
  | cons p rest ih =>
    obtain ⟨k2, v⟩ := p
    simp only [lookupA, List.map_cons, List.mem_cons]
    by_cases hk : k2 = k
    · simp [hk]
    · simp only [if_neg hk, ih]
      constructor
      · exact Or.inr
      · rintro (h | h)
        · exact absurd h.symm hk
        · exact h

/-- Membership in the aligner output, characterised by the two source
samples. -/
theorem mem_alignSeries (w : List (Int × WeatherFields))
    (aq : List (Int × AirFields)) (r : AlignedRow) :
    r ∈ alignSeries w aq ↔
      ∃ wf : WeatherFields, (r.time, wf) ∈ w ∧
        r.temperature = wf.temperature ∧ r.humidity = wf.humidity ∧
        r.wind_speed = wf.wind_speed ∧
        lookupA r.time aq = some ⟨r.pm10, r.pm25⟩ := by
  unfold alignSeries
  rw [List.mem_filterMap]
  constructor
  · rintro ⟨⟨t, wf⟩, hp, hf⟩
    rcases Option.map_eq_some'.mp hf with ⟨af, hla, hr⟩
    cases af
    subst hr
    exact ⟨wf, hp, rfl, rfl, rfl, hla⟩
  · rintro ⟨wf, hw, ht, hh, hws, hla⟩
    refine ⟨(r.time, wf), hw, ?_⟩
    rw [hla]
    simp only [Option.map_some']
    cases r
    simp_all

/-- One unfolding step of the aligner. -/
theorem alignSeries_cons (t0 : Int) (wf : WeatherFields)
    (rest : List (Int × WeatherFields)) (aq : List (Int × AirFields)) :
    alignSeries ((t0, wf) :: rest) aq =
      match lookupA t0 aq with
      | some af =>
          ⟨t0, wf.temperature, wf.humidity, wf.wind_speed, af.pm10, af.pm25⟩ ::
            alignSeries rest aq
      | none => alignSeries rest aq := by
  unfold alignSeries
  rw [List.filterMap_cons]
  cases lookupA t0 aq <;> rfl

/-- A timestamp absent from the weather collection never occurs in the
aligner output. -/
theorem countP_alignSeries_zero (w : List (Int × WeatherFields))
    (aq : List (Int × AirFields)) (t : Int) (ht : t ∉ w.map Prod.fst) :
    (alignSeries w aq).countP (fun r => decide (r.time = t)) = 0 := by
  rw [List.countP_eq_zero]
  intro r hr
  rcases (mem_alignSeries w aq r).mp hr with ⟨wf, hw, _⟩
  simp only [decide_eq_true_eq]
  intro he
  exact ht (he ▸ List.mem_map.mpr ⟨(r.time, wf), hw, rfl⟩)

/-- A timestamp present in both collections occurs exactly once in the
aligner output, when the weather timestamps are free of duplicates. -/
theorem countP_alignSeries_one (w : List (Int × WeatherFields))
    (aq : List (Int × AirFields)) (t : Int) (hw : (w.map Prod.fst).Nodup)
    (htw : t ∈ w.map Prod.fst) (hta : (lookupA t aq).isSome = true) :
    (alignSeries w aq).countP (fun r => decide (r.time = t)) = 1 := by
  induction w with
  | nil => simp at htw
  | cons p rest ih =>
    obtain ⟨t0, wf⟩ := p
    rw [List.map_cons] at hw htw
    have hnotin : t0 ∉ rest.map Prod.fst := (List.nodup_cons.mp hw).1
    have hw2 : (rest.map Prod.fst).Nodup := (List.nodup_cons.mp hw).2
    rw [alignSeries_cons]
    rcases List.mem_cons.mp htw with h0 | hmem
    · subst h0
      rcases Option.isSome_iff_exists.mp hta with ⟨af, haf⟩
      rw [haf]
      simp only [List.countP_cons, decide_eq_true_eq]
      rw [countP_alignSeries_zero rest aq t hnotin]
      simp
    · have hne : t0 ≠ t := fun h => hnotin (h ▸ hmem)
      cases hla : lookupA t0 aq with
      | none => exact ih hw2 hmem
      | some af =>
        simp only [List.countP_cons, decide_eq_true_eq]
        rw [ih hw2 hmem]
        simp [hne]

/-- C4: for every pair of weather and air-quality collections (keyed by
timestamp, so with no duplicate keys on the weather side), the aligner output
has exactly one row per timestamp present in both collections and none for a
timestamp present in only one; every output row carries the three weather
fields and the two particulate fields of its two source samples, and its
timestamp is a total value drawn from both inputs (never null). -/
theorem series_aligner_correct (w : List (Int × WeatherFields))
    (aq : List (Int × AirFields)) (hw : (w.map Prod.fst).Nodup) :
    (∀ t : Int, (∃ r ∈ alignSeries w aq, r.time = t) ↔
        t ∈ w.map Prod.fst ∧ t ∈ aq.map Prod.fst) ∧
    (∀ t : Int, t ∈ w.map Prod.fst → t ∈ aq.map Prod.fst →
        (alignSeries w aq).countP (fun r => decide (r.time = t)) = 1) ∧
    (∀ r ∈ alignSeries w aq,
        ∃ wf af, (r.time, wf) ∈ w ∧ lookupA r.time aq = some af ∧
          r.temperature = wf.temperature ∧ r.humidity = wf.humidity ∧
          r.wind_speed = wf.wind_speed ∧ r.pm10 = af.pm10 ∧
          r.pm25 = af.pm25) := by
  refine ⟨?_, ?_, ?_⟩
  · intro t
    constructor
    · rintro ⟨r, hr, hrt⟩
      rcases (mem_alignSeries w aq r).mp hr with ⟨wf, hmem, _, _, _, hla⟩
      subst hrt
      refine ⟨List.mem_map.mpr ⟨(r.time, wf), hmem, rfl⟩, ?_⟩
      rw [← lookupA_isSome_iff]
      rw [hla]
      rfl
    · rintro ⟨htw, hta⟩
      rcases List.mem_map.mp htw with ⟨⟨t2, wf⟩, hmem, ht2⟩
      rcases Option.isSome_iff_exists.mp
        ((lookupA_isSome_iff t aq).mpr hta) with ⟨af, haf⟩
      refine ⟨⟨t, wf.temperature, wf.humidity, wf.wind_speed,
        af.pm10, af.pm25⟩, ?_, rfl⟩
      rw [mem_alignSeries]
      refine ⟨wf, ?_, rfl, rfl, rfl, ?_⟩
      · cases ht2
        exact hmem
      · cases af
        exact haf
  · intro t htw hta
    exact countP_alignSeries_one w aq t hw htw
      ((lookupA_isSome_iff t aq).mpr hta)
  · intro r hr
    rcases (mem_alignSeries w aq r).mp hr with ⟨wf, hmem, ht, hh, hws, hla⟩
    exact ⟨wf, ⟨r.pm10, r.pm25⟩, hmem, hla, ht, hh, hws, rfl, rfl⟩

/-- C4 witness: the aligner instantiated at the two-timestamp scenario of
spec section 8. -/
theorem series_aligner_correct_witness :
    ((∃ r ∈ alignSeries sampleWeather sampleAir, r.time = 1) ↔
      (1 : Int) ∈ sampleWeather.map Prod.fst ∧
        (1 : Int) ∈ sampleAir.map Prod.fst) ∧
    (alignSeries sampleWeather sampleAir).countP
      (fun r => decide (r.time = 2)) = 1 :=
  ⟨(series_aligner_correct sampleWeather sampleAir (by decide)).1 1,
    (series_aligner_correct sampleWeather sampleAir (by decide)).2.1 2
      (by decide) (by decide)⟩

/-- A weather payload passes the well-formedness check exactly when it is
intact in the sense of the claim. -/
theorem wellFormedWeather_iff (w : RawWeather) :
    wellFormedWeather w = true ↔ weatherIntact w := by
  obtain ⟨t, te, hu, wi⟩ := w
  unfold wellFormedWeather weatherIntact
  cases t <;> cases te <;> cases hu <;> cases wi <;> simp [and_assoc]

/-- An air-quality payload passes the well-formedness check exactly when it is
intact in the sense of the claim. -/
theorem wellFormedAir_iff (a : RawAir) :
    wellFormedAir a = true ↔ airIntact a := by
  obtain ⟨t, p10, p25⟩ := a
  unfold wellFormedAir airIntact
  cases t <;> cases p10 <;> cases p25 <;> simp [and_assoc]

/-- Positionwise: mapping after replacing one element changes no other
position. -/
theorem map_set_get_ne {α β : Type} (f : α → β) :
    ∀ (l : List α) (j : ℕ) (x : α) (i : ℕ), i ≠ j →
      ((l.set j x).map f).get? i = (l.map f).get? i := by
  intro l
  induction l with
  | nil => intro j x i _; rfl
  | cons a rest ih =>
    intro j x i hij
    cases j with
    | zero =>
      cases i with
      | zero => exact absurd rfl hij
      | succ i2 => rfl
    | succ j2 =>
      cases i with
      | zero => rfl
      | succ i2 => exact ih j2 x i2 (fun h => hij (by rw [h]))

/-- C5: the aligner signals MalformedSourceData exactly when either source
collection is empty or malformed (missing the expected arrays or with
mismatched array lengths), and then produces no partially aligned output (an
ok result is always the full alignment); the error is scoped to one city: in
the per-city orchestration, replacing one city's input changes no other
city's outcome. -/
theorem aligner_malformed_error (w : RawWeather) (a : RawAir) :
    ((∃ e, transform_data w a = Except.error e) ↔
        ¬(weatherIntact w ∧ airIntact a)) ∧
    (∀ rows, transform_data w a = Except.ok rows →
        rows = alignSeries (weatherSeries w) (airSeries a)) ∧
    (∀ (inputs : List (RawWeather × RawAir)) (j : ℕ)
        (x : RawWeather × RawAir) (i : ℕ), i ≠ j →
        (runAllCities (inputs.set j x)).get? i = (runAllCities inputs).get? i) := by
  refine ⟨?_, ?_, ?_⟩
  · unfold transform_data
    by_cases hok : wellFormedWeather w && wellFormedAir a
    · rw [if_pos hok]
      rcases Bool.and_eq_true_iff.mp hok with ⟨h1, h2⟩
      constructor
      · rintro ⟨e, he⟩
        exact absurd he (by simp)
      · intro hni
        exact absurd ⟨(wellFormedWeather_iff w).mp h1,
          (wellFormedAir_iff a).mp h2⟩ hni
    · rw [if_neg hok]
      constructor
      · rintro ⟨e, _⟩
        rintro ⟨hi1, hi2⟩
        exact hok (Bool.and_eq_true_iff.mpr
          ⟨(wellFormedWeather_iff w).mpr hi1, (wellFormedAir_iff a).mpr hi2⟩)
      · intro _
        exact ⟨EtlError.malformedSourceData, rfl⟩
  · intro rows hr
    unfold transform_data at hr
    by_cases hok : wellFormedWeather w && wellFormedAir a
    · rw [if_pos hok] at hr
      cases hr
      rfl
    · rw [if_neg hok] at hr
      cases hr
  · intro inputs j x i hij
    unfold runAllCities
    exact map_set_get_ne _ inputs j x i hij

/-- C5 witness: a payload missing its time array yields the error, and
replacing city 0's input leaves city 1's outcome unchanged. -/
theorem aligner_malformed_error_witness :
    (∃ e, transform_data sampleRawWeatherBad sampleRawAirGood =
        Except.error e) ∧
    (runAllCities ([(sampleRawWeatherBad, sampleRawAirGood),
        (sampleRawWeatherGood, sampleRawAirGood)].set 0
          (sampleRawWeatherGood, sampleRawAirGood))).get? 1 =
      (runAllCities [(sampleRawWeatherBad, sampleRawAirGood),
        (sampleRawWeatherGood, sampleRawAirGood)]).get? 1 :=
  ⟨(aligner_malformed_error sampleRawWeatherBad sampleRawAirGood).1.mpr
      (by
        rintro ⟨⟨ts, te, hu, wi, hts, _⟩, _⟩
        simp [sampleRawWeatherBad] at hts),
    (aligner_malformed_error sampleRawWeatherBad sampleRawAirGood).2.2
      [(sampleRawWeatherBad, sampleRawAirGood),
        (sampleRawWeatherGood, sampleRawAirGood)] 0
      (sampleRawWeatherGood, sampleRawAirGood) 1 (by decide)⟩

/-- Lookup after an upsert at the same key returns the new value. -/
theorem lookupA_upsertA_self {κ α : Type} [DecidableEq κ] (k : κ) (v : α)
    (t : List (κ × α)) : lookupA k (upsertA k v t) = some v := by
  induction t with
  | nil => simp [upsertA, lookupA]
  | cons p rest ih =>
    obtain ⟨k2, v2⟩ := p
    by_cases hk : k2 = k
    · simp [upsertA, hk, lookupA]
    · simp [upsertA, hk, lookupA, ih]

/-- Lookup at another key is unaffected by an upsert. -/
theorem lookupA_upsertA_ne {κ α : Type} [DecidableEq κ] {k1 k : κ} (v : α)
    (t : List (κ × α)) (hne : k1 ≠ k) :
    lookupA k1 (upsertA k v t) = lookupA k1 t := by
  induction t with
  | nil => simp [upsertA, lookupA, Ne.symm hne]
  | cons p rest ih =>
    obtain ⟨k2, v2⟩ := p
    by_cases hk : k2 = k
    · subst hk
      simp [upsertA, lookupA, Ne.symm hne]
    · simp [upsertA, hk, lookupA, ih]

/-- An upsert at a key already present leaves the key list unchanged. -/
theorem keys_upsertA_mem {κ α : Type} [DecidableEq κ] {k : κ} (v : α)
    {t : List (κ × α)} (h : k ∈ t.map Prod.fst) :
    (upsertA k v t).map Prod.fst = t.map Prod.fst := by
  induction t with
  | nil => simp at h
  | cons p rest ih =>
    obtain ⟨k2, v2⟩ := p
    by_cases hk : k2 = k
    · simp [upsertA, hk]
    · rw [List.map_cons, List.mem_cons] at h
      rcases h with h | h
      · exact absurd h.symm hk
      · simp [upsertA, hk, ih h]

/-- An upsert at a fresh key appends it to the key list. -/
theorem keys_upsertA_not_mem {κ α : Type} [DecidableEq κ] {k : κ} (v : α)
    {t : List (κ × α)} (h : k ∉ t.map Prod.fst) :
    (upsertA k v t).map Prod.fst = t.map Prod.fst ++ [k] := by
  induction t with
  | nil => simp [upsertA]
  | cons p rest ih =>
    obtain ⟨k2, v2⟩ := p
    rw [List.map_cons, List.mem_cons] at h
    push_neg at h
    have hk : k2 ≠ k := fun he => h.1 he.symm
    simp [upsertA, hk, ih h.2]

/-- The upserted key is present afterwards. -/
theorem mem_keys_upsertA_self {κ α : Type} [DecidableEq κ] (k : κ) (v : α)
    (t : List (κ × α)) : k ∈ (upsertA k v t).map Prod.fst := by
  by_cases h : k ∈ t.map Prod.fst
  · rw [keys_upsertA_mem v h]; exact h
  · rw [keys_upsertA_not_mem v h]; simp

/-- A present key stays present through any upsert. -/
theorem mem_keys_upsertA_of_mem {κ α : Type} [DecidableEq κ] {k1 : κ} (k : κ)
    (v : α) {t : List (κ × α)} (h : k1 ∈ t.map Prod.fst) :
    k1 ∈ (upsertA k v t).map Prod.fst := by
  by_cases hk : k ∈ t.map Prod.fst
  · rw [keys_upsertA_mem v hk]; exact h
  · rw [keys_upsertA_not_mem v hk]; exact List.mem_append_left _ h

/-- Upserting never creates a duplicate key. -/
theorem nodup_keys_upsertA {κ α : Type} [DecidableEq κ] (k : κ) (v : α)
    {t : List (κ × α)} (h : (t.map Prod.fst).Nodup) :
    ((upsertA k v t).map Prod.fst).Nodup := by
  by_cases hk : k ∈ t.map Prod.fst
  · rw [keys_upsertA_mem v hk]; exact h
  · rw [keys_upsertA_not_mem v hk]
    rw [List.nodup_append]
    exact ⟨h, List.nodup_singleton k, by simpa using hk⟩

/-- Upserting twice at one key is the same as upserting once. -/
theorem upsertA_idem {κ α : Type} [DecidableEq κ] (k : κ) (v : α)
    (t : List (κ × α)) : upsertA k v (upsertA k v t) = upsertA k v t := by
  induction t with
  | nil => simp [upsertA]
  | cons p rest ih =>
    obtain ⟨k2, v2⟩ := p
    by_cases hk : k2 = k
    · simp [upsertA, hk]
    · simp [upsertA, hk, ih]

/-- Upserts at distinct keys commute when the first key is already present
(in-place replacement commutes with anything at another key). -/
theorem upsertA_comm_of_mem {κ α : Type} [DecidableEq κ] {k k2 : κ}
    (v v2 : α) {t : List (κ × α)} (hne : k ≠ k2) (hmem : k ∈ t.map Prod.fst) :
    upsertA k2 v2 (upsertA k v t) = upsertA k v (upsertA k2 v2 t) := by
  induction t with
  | nil => simp at hmem
  | cons p rest ih =>
    obtain ⟨k3, v3⟩ := p
    rw [List.map_cons, List.mem_cons] at hmem
    by_cases h3 : k3 = k
    · subst h3
      have h32 : k3 ≠ k2 := hne
      simp [upsertA, h32]
    · rcases hmem with hmem | hmem
      · exact absurd hmem.symm h3
      · by_cases h32 : k3 = k2
        · subst h32
          simp [upsertA, h3, fun h : k = k3 => h3 h.symm]
        · simp [upsertA, h3, h32, ih hmem]

/-- One unfolding step of a batched upsert. -/
theorem upsertAll_cons {κ α : Type} [DecidableEq κ] (k : κ) (v : α)
    (rest t : List (κ × α)) :
    upsertAll ((k, v) :: rest) t = upsertAll rest (upsertA k v t) := rfl

/-- A batched upsert commutes with a single upsert at a key outside the batch
and already present in the table. -/
theorem upsertAll_upsertA_comm {κ α : Type} [DecidableEq κ] {k : κ} (v : α)
    (kvs : List (κ × α)) :
    ∀ (t : List (κ × α)), k ∉ kvs.map Prod.fst → k ∈ t.map Prod.fst →
      upsertAll kvs (upsertA k v t) = upsertA k v (upsertAll kvs t) := by
  induction kvs with
  | nil => intro t _ _; rfl
  | cons p rest ih =>
    intro t hk hmem
    obtain ⟨k2, v2⟩ := p
    rw [List.map_cons, List.mem_cons] at hk
    push_neg at hk
    show upsertAll rest (upsertA k2 v2 (upsertA k v t)) = _
    rw [upsertA_comm_of_mem v v2 hk.1 hmem]
    exact ih (upsertA k2 v2 t) hk.2 (mem_keys_upsertA_of_mem k2 v2 hmem)

/-- A present key stays present through a batched upsert. -/
theorem mem_keys_upsertAll_of_mem {κ α : Type} [DecidableEq κ] {k1 : κ}
    (kvs : List (κ × α)) :
    ∀ (t : List (κ × α)), k1 ∈ t.map Prod.fst →
      k1 ∈ (upsertAll kvs t).map Prod.fst := by
  induction kvs with
  | nil => intro t h; exact h
  | cons p rest ih =>
    intro t h
    exact ih (upsertA p.1 p.2 t) (mem_keys_upsertA_of_mem p.1 p.2 h)

/-- A batched upsert never creates a duplicate key. -/
theorem nodup_keys_upsertAll {κ α : Type} [DecidableEq κ]
    (kvs : List (κ × α)) :
    ∀ (t : List (κ × α)), (t.map Prod.fst).Nodup →
      ((upsertAll kvs t).map Prod.fst).Nodup := by
  induction kvs with
  | nil => intro t h; exact h
  | cons p rest ih =>
    intro t h
    exact ih (upsertA p.1 p.2 t) (nodup_keys_upsertA p.1 p.2 h)

/-- Replaying a whole batch with duplicate-free keys is the same as applying
it once. -/
theorem upsertAll_idem {κ α : Type} [DecidableEq κ] (kvs : List (κ × α))
    (hkvs : (kvs.map Prod.fst).Nodup) :
    ∀ (t : List (κ × α)), upsertAll kvs (upsertAll kvs t) = upsertAll kvs t := by
  induction kvs with
  | nil => intro t; rfl
  | cons p rest ih =>
    intro t
    obtain ⟨k, v⟩ := p
    simp only [List.map_cons, List.nodup_cons] at hkvs
    rw [upsertAll_cons, upsertAll_cons,
      ← upsertAll_upsertA_comm v rest (upsertA k v t) hkvs.1
        (mem_keys_upsertA_self k v t),
      upsertA_idem, ih hkvs.2]

/-- A key outside the batch is looked up unchanged through a batched upsert. -/
theorem lookupA_upsertAll_not_mem {κ α : Type} [DecidableEq κ] {k : κ}
    (kvs : List (κ × α)) :
    ∀ (t : List (κ × α)), k ∉ kvs.map Prod.fst →
      lookupA k (upsertAll kvs t) = lookupA k t := by
  induction kvs with
  | nil => intro t _; rfl
  | cons p rest ih =>
    intro t hk
    rw [List.map_cons, List.mem_cons] at hk
    push_neg at hk
    show lookupA k (upsertAll rest (upsertA p.1 p.2 t)) = _
    rw [ih (upsertA p.1 p.2 t) hk.2, lookupA_upsertA_ne p.2 t hk.1]

/-- After a batched upsert with duplicate-free keys, every batch entry is
looked up to its batch value. -/
theorem lookupA_upsertAll_mem {κ α : Type} [DecidableEq κ] {k : κ} {v : α}
    (kvs : List (κ × α)) (hkvs : (kvs.map Prod.fst).Nodup) :
    ∀ (t : List (κ × α)), (k, v) ∈ kvs →
      lookupA k (upsertAll kvs t) = some v := by
  induction kvs with
  | nil => intro t h; simp at h
  | cons p rest ih =>
    intro t h
    obtain ⟨k2, v2⟩ := p
    simp only [List.map_cons, List.nodup_cons] at hkvs
    rcases List.mem_cons.mp h with h | h
    · injection h with hk hv
      subst hk
      subst hv
      rw [upsertAll_cons,
        lookupA_upsertAll_not_mem rest (upsertA k v t) hkvs.1]
      exact lookupA_upsertA_self k v t
    · exact ih hkvs.2 (upsertA k2 v2 t) h

/-- Lookup distributes over append when the key misses the first part. -/
theorem lookupA_append_of_none {κ α : Type} [DecidableEq κ] (k : κ)
    (l1 l2 : List (κ × α)) (h : lookupA k l1 = none) :
    lookupA k (l1 ++ l2) = lookupA k l2 := by
  induction l1 with
  | nil => rfl
  | cons p rest ih =>
    obtain ⟨k2, v2⟩ := p
    by_cases hk : k2 = k
    · simp [lookupA, hk] at h
    · simp only [lookupA, if_neg hk] at h ⊢
      exact ih h

/-- Two stores with equal components are equal. -/
theorem dbExt {a b : DB} (h1 : a.dim_city = b.dim_city)
    (h2 : a.next_id = b.next_id) (h3 : a.fact_weather = b.fact_weather)
    (h4 : a.fact_air_quality = b.fact_air_quality) : a = b := by
  cases a
  cases b
  simp_all

/-- Resolving a city touches neither fact table. -/
theorem resolveCity_facts (db : DB) (c : CityInfo) :
    (resolveCity db c).1.fact_weather = db.fact_weather ∧
    (resolveCity db c).1.fact_air_quality = db.fact_air_quality := by
  cases h : lookupA c.name db.dim_city <;> simp [resolveCity, h]

/-- The weather table after a load. -/
theorem load_fact_weather (db : DB) (c : CityInfo) (rows : List PredictedRow) :
    (load_to_db db c rows).fact_weather =
      upsertAll (rows.map (weatherKV (resolveCity db c).2)) db.fact_weather := by
  have h := (resolveCity_facts db c).1
  simp [load_to_db, h]

/-- The air-quality table after a load. -/
theorem load_fact_air (db : DB) (c : CityInfo) (rows : List PredictedRow) :
    (load_to_db db c rows).fact_air_quality =
      upsertAll (rows.map (airKV (resolveCity db c).2))
        db.fact_air_quality := by
  have h := (resolveCity_facts db c).2
  simp [load_to_db, h]

/-- The dimension after a load is the dimension after the resolve step. -/
theorem load_dim (db : DB) (c : CityInfo) (rows : List PredictedRow) :
    (load_to_db db c rows).dim_city = (resolveCity db c).1.dim_city := rfl

/-- The serial counter after a load. -/
theorem load_next_id (db : DB) (c : CityInfo) (rows : List PredictedRow) :
    (load_to_db db c rows).next_id = (resolveCity db c).1.next_id := rfl

/-- Re-resolving a city after loading it finds the same city id and changes
nothing. -/
theorem resolveCity_after_load (db : DB) (c : CityInfo)
    (rows : List PredictedRow) :
    resolveCity (load_to_db db c rows) c =
      (load_to_db db c rows, (resolveCity db c).2) := by
  cases h : lookupA c.name db.dim_city with
  | some rec =>
    have h1 : resolveCity db c = (db, rec.city_id) := by simp [resolveCity, h]
    have h2 : lookupA c.name (load_to_db db c rows).dim_city = some rec := by
      rw [load_dim, h1]
      exact h
    simp [resolveCity, h2, h1, h]
  | none =>
    have h1 : resolveCity db c =
        ({ db with
            dim_city := db.dim_city ++
              [(c.name,
                ⟨db.next_id, c.country_code, c.latitude, c.longitude⟩)]
            next_id := db.next_id + 1 }, db.next_id) := by
      simp [resolveCity, h]
    have h2 : lookupA c.name (load_to_db db c rows).dim_city =
        some ⟨db.next_id, c.country_code, c.latitude, c.longitude⟩ := by
      rw [load_dim, h1]
      show lookupA c.name (db.dim_city ++ _) = _
      rw [lookupA_append_of_none c.name db.dim_city _ h]
      simp [lookupA]
    simp [resolveCity, h2, h1, h]

/-- Pairing a fixed city id with duplicate-free timestamps gives
duplicate-free keys. -/
theorem nodup_pair_keys (cid : ℕ) (rows : List PredictedRow)
    (h : (rows.map (fun r => r.time)).Nodup) :
    (rows.map (fun r => ((cid, r.time) : ℕ × Int))).Nodup := by
  have h2 : rows.map (fun r => ((cid, r.time) : ℕ × Int)) =
      (rows.map (fun r => r.time)).map (fun t => (cid, t)) := by
    rw [List.map_map]
    rfl
  rw [h2]
  exact h.map (fun a b hab => congrArg Prod.snd hab)

/-- A load preserves the key-uniqueness invariant of both fact tables. -/
theorem dbKeysUnique_load (db : DB) (c : CityInfo) (rows : List PredictedRow)
    (h : dbKeysUnique db) : dbKeysUnique (load_to_db db c rows) := by
  constructor
  · rw [load_fact_weather]
    exact nodup_keys_upsertAll _ _ h.1
  · rw [load_fact_air]
    exact nodup_keys_upsertAll _ _ h.2

/-- Any sequence of loads preserves the key-uniqueness invariant. -/
theorem applyLoads_unique :
    ∀ (batches : List (CityInfo × List PredictedRow)) (db : DB),
      dbKeysUnique db → dbKeysUnique (applyLoads batches db) := by
  intro batches
  induction batches with
  | nil => intro db h; exact h
  | cons b rest ih =>
    intro db h
    exact ih (load_to_db db b.1 b.2) (dbKeysUnique_load db b.1 b.2 h)

/-- C3: the Upsert Loader is idempotent (loading the same city and row set
twice leaves exactly the state of loading it once), every sequence of loads
keeps at most one row per (city_id, timestamp) key in each fact table, and a
load overwrites the fact values at an existing key with the new row's values
instead of inserting a duplicate. -/
theorem upsert_loader_correct :
    (∀ (db : DB) (c : CityInfo) (rows : List PredictedRow),
        (rows.map (fun r => r.time)).Nodup →
        load_to_db (load_to_db db c rows) c rows = load_to_db db c rows) ∧
    (∀ batches : List (CityInfo × List PredictedRow),
        dbKeysUnique (applyLoads batches emptyDB)) ∧
    (∀ (db : DB) (c : CityInfo) (rows : List PredictedRow)
        (r : PredictedRow), (rows.map (fun r2 => r2.time)).Nodup → r ∈ rows →
        lookupA ((resolveCity db c).2, r.time)
            (load_to_db db c rows).fact_weather =
          some ⟨r.temperature, r.humidity, r.wind_speed⟩ ∧
        lookupA ((resolveCity db c).2, r.time)
            (load_to_db db c rows).fact_air_quality =
          some ⟨r.pm10, r.pm25, r.predicted_pm25⟩) := by
  refine ⟨?_, ?_, ?_⟩
  · intro db c rows hnod
    have hres := resolveCity_after_load db c rows
    have hcid : (resolveCity (load_to_db db c rows) c).2 =
        (resolveCity db c).2 := by rw [hres]
    have hst : (resolveCity (load_to_db db c rows) c).1 =
        load_to_db db c rows := by rw [hres]
    have hkw : ((rows.map (weatherKV (resolveCity db c).2)).map
        Prod.fst).Nodup := by
      rw [List.map_map]
      exact nodup_pair_keys _ rows hnod
    have hka : ((rows.map (airKV (resolveCity db c).2)).map
        Prod.fst).Nodup := by
      rw [List.map_map]
      exact nodup_pair_keys _ rows hnod
    apply dbExt
    · rw [load_dim, hst]
    · rw [load_next_id, hst]
    · rw [load_fact_weather (load_to_db db c rows) c rows, hcid,
        load_fact_weather db c rows]
      exact upsertAll_idem _ hkw db.fact_weather
    · rw [load_fact_air (load_to_db db c rows) c rows, hcid,
        load_fact_air db c rows]
      exact upsertAll_idem _ hka db.fact_air_quality
  · intro batches
    exact applyLoads_unique batches emptyDB (by simp [emptyDB, dbKeysUnique])
  · intro db c rows r hnod hr
    have hkw : ((rows.map (weatherKV (resolveCity db c).2)).map
        Prod.fst).Nodup := by
      rw [List.map_map]
      exact nodup_pair_keys _ rows hnod
    have hka : ((rows.map (airKV (resolveCity db c).2)).map
        Prod.fst).Nodup := by
      rw [List.map_map]
      exact nodup_pair_keys _ rows hnod
    constructor
    · rw [load_fact_weather db c rows]
      exact lookupA_upsertAll_mem _ hkw db.fact_weather
        (List.mem_map.mpr ⟨r, hr, rfl⟩)
    · rw [load_fact_air db c rows]
      exact lookupA_upsertAll_mem _ hka db.fact_air_quality
        (List.mem_map.mpr ⟨r, hr, rfl⟩)

/-- C3 witness: the loader instantiated at the re-run scenario of spec
section 8 (city X re-loaded with an updated pm25 at a previously loaded
timestamp). -/
theorem upsert_loader_correct_witness :
    load_to_db (load_to_db emptyDB sampleCity [samplePredRow 1 10]) sampleCity
        [samplePredRow 1 10] =
      load_to_db emptyDB sampleCity [samplePredRow 1 10] ∧
    dbKeysUnique (applyLoads
      [(sampleCity, [samplePredRow 1 10]), (sampleCity, [samplePredRow 1 99])]
      emptyDB) ∧
    lookupA ((resolveCity (load_to_db emptyDB sampleCity [samplePredRow 1 10])
          sampleCity).2, (1 : Int))
        (load_to_db (load_to_db emptyDB sampleCity [samplePredRow 1 10])
          sampleCity [samplePredRow 1 99]).fact_air_quality =
      some ⟨some 4, some 99, none⟩ :=
  ⟨upsert_loader_correct.1 emptyDB sampleCity [samplePredRow 1 10] (by decide),
    upsert_loader_correct.2.1
      [(sampleCity, [samplePredRow 1 10]), (sampleCity, [samplePredRow 1 99])],
    (upsert_loader_correct.2.2
        (load_to_db emptyDB sampleCity [samplePredRow 1 10]) sampleCity
        [samplePredRow 1 99] (samplePredRow 1 99) (by decide)
        (List.mem_singleton.mpr rfl)).2⟩

/-- A fully successful transaction commits exactly the atomic load. -/
theorem runTx_ok (fails : ℕ → Bool) (db : DB) (c : CityInfo)
    (rows : List PredictedRow) (h0 : fails 0 = false) (h1 : fails 1 = false)
    (h2 : fails 2 = false) :
    runTx fails db c rows = Except.ok (load_to_db db c rows) := by
  simp only [runTx, show List.range 3 = [0, 1, 2] from rfl, List.foldlM,
    h0, h1, h2, if_neg, Bool.false_eq_true, not_false_eq_true]
  rfl

/-- A failure at any statement aborts the whole unit. -/
theorem runTx_err (fails : ℕ → Bool) (db : DB) (c : CityInfo)
    (rows : List PredictedRow)
    (h : fails 0 = true ∨ fails 1 = true ∨ fails 2 = true) :
    runTx fails db c rows = Except.error EtlError.storageUnavailable := by
  by_cases h0 : fails 0 = true
  · simp [runTx, show List.range 3 = [0, 1, 2] from rfl, List.foldlM, h0,
      bind, Except.bind, Except.map]
  · rw [Bool.not_eq_true] at h0
    by_cases h1 : fails 1 = true
    · simp [runTx, show List.range 3 = [0, 1, 2] from rfl, List.foldlM, h0,
        h1, bind, Except.bind, Except.map]
    · rw [Bool.not_eq_true] at h1
      rcases h with h | h | h
      · rw [h0] at h; cases h
      · rw [h1] at h; cases h
      · simp [runTx, show List.range 3 = [0, 1, 2] from rfl, List.foldlM,
          h0, h1, h, bind, Except.bind, Except.map]

/-- C7: the per-city unit of work is atomic: whatever subset of its three
storage statements fails, the visible outcome is either the full committed
load or the untouched prior state (rollback); an error outcome never leaves
partial fact rows, and with no failure the unit commits exactly the atomic
load. -/
theorem loader_atomic_rollback (fails : ℕ → Bool) (db : DB) (c : CityInfo)
    (rows : List PredictedRow) :
    (runTx fails db c rows = Except.ok (load_to_db db c rows) ∨
      runTx fails db c rows = Except.error EtlError.storageUnavailable) ∧
    (runTx fails db c rows = Except.error EtlError.storageUnavailable →
      loadOutcome fails db c rows = db) ∧
    ((fails 0 = false ∧ fails 1 = false ∧ fails 2 = false) →
      loadOutcome fails db c rows = load_to_db db c rows) ∧
    (loadOutcome fails db c rows = db ∨
      loadOutcome fails db c rows = load_to_db db c rows) := by
  have hall : runTx fails db c rows = Except.ok (load_to_db db c rows) ∨
      runTx fails db c rows = Except.error EtlError.storageUnavailable := by
    by_cases h0 : fails 0 = true
    · exact Or.inr (runTx_err fails db c rows (Or.inl h0))
    · by_cases h1 : fails 1 = true
      · exact Or.inr (runTx_err fails db c rows (Or.inr (Or.inl h1)))
      · by_cases h2 : fails 2 = true
        · exact Or.inr (runTx_err fails db c rows (Or.inr (Or.inr h2)))
        · rw [Bool.not_eq_true] at h0 h1 h2
          exact Or.inl (runTx_ok fails db c rows h0 h1 h2)
  refine ⟨hall, ?_, ?_, ?_⟩
  · intro herr
    simp [loadOutcome, herr]
  · rintro ⟨h0, h1, h2⟩
    simp [loadOutcome, runTx_ok fails db c rows h0 h1 h2]
  · rcases hall with hok | herr
    · exact Or.inr (by simp [loadOutcome, hok])
    · exact Or.inl (by simp [loadOutcome, herr])

/-- C7 witness: a failure at the weather batch statement rolls the store back
to its prior state; with no failure the unit commits the atomic load. -/
theorem loader_atomic_rollback_witness :
    loadOutcome (fun i => decide (i = 1)) emptyDB sampleCity
        [samplePredRow 1 10] = emptyDB ∧
    loadOutcome (fun _ => false) emptyDB sampleCity [samplePredRow 1 10] =
      load_to_db emptyDB sampleCity [samplePredRow 1 10] :=
  ⟨(loader_atomic_rollback (fun i => decide (i = 1)) emptyDB sampleCity
        [samplePredRow 1 10]).2.1
      (runTx_err _ emptyDB sampleCity [samplePredRow 1 10]
        (Or.inr (Or.inl rfl))),
    (loader_atomic_rollback (fun _ => false) emptyDB sampleCity
        [samplePredRow 1 10]).2.2.1 ⟨rfl, rfl, rfl⟩⟩

/-- C2: with fewer than 10 training rows (rows with temperature, wind_speed,
humidity and pm25 all non-null) no model is fitted and every output row's
predicted_pm25 is null, with no error; with at least 10, the model fitted on
the training subset is applied to every row of the full sequence, missing
predictor values imputed with that predictor's training-subset mean, and every
row (all rows being fully imputable) carries a non-null prediction rounded to
2 decimal places; in both cases the output preserves the input rows, for any
behaviour of the external least-squares fit. -/
theorem forecast_threshold (fit : List AlignedRow → LinModel)
    (rows : List AlignedRow) :
    ((trainSubset rows).length < 10 →
      train_and_predict_ml fit rows =
        rows.map (fun r => { toAlignedRow := r, predicted_pm25 := none }) ∧
      ∀ p ∈ train_and_predict_ml fit rows, p.predicted_pm25 = none) ∧
    (10 ≤ (trainSubset rows).length →
      train_and_predict_ml fit rows =
        rows.map (fun r =>
          { toAlignedRow := r
            predicted_pm25 := some (round2 (applyModel
              (fit (trainSubset rows))
              (r.temperature.getD
                (colMean (trainSubset rows) AlignedRow.temperature))
              (r.wind_speed.getD
                (colMean (trainSubset rows) AlignedRow.wind_speed))
              (r.humidity.getD
                (colMean (trainSubset rows) AlignedRow.humidity)))) }) ∧
      ∀ p ∈ train_and_predict_ml fit rows, ∃ q, p.predicted_pm25 = some q) ∧
    (train_and_predict_ml fit rows).map (fun p => p.toAlignedRow) = rows := by
  refine ⟨?_, ?_, ?_⟩
  · intro h
    have heq : train_and_predict_ml fit rows =
        rows.map (fun r => { toAlignedRow := r, predicted_pm25 := none }) := by
      simp [train_and_predict_ml, if_pos h]
    refine ⟨heq, ?_⟩
    intro p hp
    rw [heq] at hp
    rcases List.mem_map.mp hp with ⟨r, _, hr⟩
    rw [← hr]
  · intro h10
    have h : ¬(trainSubset rows).length < 10 := not_lt.mpr h10
    have heq : train_and_predict_ml fit rows = rows.map (fun r =>
        { toAlignedRow := r
          predicted_pm25 := some (round2 (applyModel (fit (trainSubset rows))
            (r.temperature.getD
              (colMean (trainSubset rows) AlignedRow.temperature))
            (r.wind_speed.getD
              (colMean (trainSubset rows) AlignedRow.wind_speed))
            (r.humidity.getD
              (colMean (trainSubset rows) AlignedRow.humidity)))) }) := by
      simp [train_and_predict_ml, if_neg h]
    refine ⟨heq, ?_⟩
    intro p hp
    rw [heq] at hp
    rcases List.mem_map.mp hp with ⟨r, _, hr⟩
    exact ⟨_, by rw [← hr]⟩
  · by_cases h : (trainSubset rows).length < 10
    · simp only [train_and_predict_ml, if_pos h, List.map_map]
      exact List.map_id rows
    · simp only [train_and_predict_ml, if_neg h, List.map_map]
      exact List.map_id rows

/-- C2 witness: the threshold theorem instantiated at 9 and at 10 full
training rows with a concrete fit. -/
theorem forecast_threshold_witness :
    (∀ p ∈ train_and_predict_ml fitZero rows9, p.predicted_pm25 = none) ∧
    (∀ p ∈ train_and_predict_ml fitZero rows10,
      ∃ q, p.predicted_pm25 = some q) :=
  ⟨((forecast_threshold fitZero rows9).1 (by decide)).2,
    ((forecast_threshold fitZero rows10).2.1 (by decide)).2⟩

/-- Expanding a centered square sum. -/
theorem sum_map_sub_sq (a : ℝ) (x : List ℝ) :
    (x.map (fun v => (v - a) * (v - a))).sum =
      (x.map (fun v => v * v)).sum - 2 * a * x.sum +
        (x.length : ℝ) * (a * a) := by
  induction x with
  | nil => simp
  | cons v rest ih =>
    simp only [List.map_cons, List.sum_cons, List.length_cons, ih]
    push_cast
    ring

/-- Expanding a centered product sum over a zip of equal-length lists. -/
theorem sum_zip_map_sub (a b : ℝ) :
    ∀ (x y : List ℝ), x.length = y.length →
      ((x.zip y).map (fun p => (p.1 - a) * (p.2 - b))).sum =
        ((x.zip y).map (fun p => p.1 * p.2)).sum - a * y.sum - b * x.sum +
          (x.length : ℝ) * (a * b) := by
  intro x
  induction x with
  | nil =>
    intro y h
    have hy : y = [] := List.length_eq_zero.mp h.symm
    subst hy
    simp
  | cons v rest ih =>
    intro y h
    cases y with
    | nil => simp at h
    | cons w yrest =>
      have h2 : rest.length = yrest.length := by simpa using h
      simp only [List.zip_cons_cons, List.map_cons, List.sum_cons,
        List.length_cons, ih yrest h2]
      push_cast
      ring

/-- A centered square sum is non-negative. -/
theorem sum_sq_nonneg (a : ℝ) (x : List ℝ) :
    0 ≤ (x.map (fun v => (v - a) * (v - a))).sum := by
  apply List.sum_nonneg
  intro q hq
  rcases List.mem_map.mp hq with ⟨v, _, hv⟩
  rw [← hv]
  exact mul_self_nonneg _

/-- The Pearson helper on a nonempty input, written with its denominator
squared named. -/
theorem pearson_eq (x y : List ℝ) (hx : x.length ≠ 0) :
    calculatePearsonCorrelation x y =
      if Real.sqrt (pearsonDenomSq x y) = 0 then 0
      else ((x.length : ℝ) * ((x.zip y).map (fun p => p.1 * p.2)).sum -
        x.sum * y.sum) / Real.sqrt (pearsonDenomSq x y) := by
  simp only [calculatePearsonCorrelation, pearsonDenomSq]
  rw [if_neg hx]

/-- C10: calculatePearsonCorrelation is total and never divides by zero: for
equal-length inputs it returns 0 on the empty input and whenever the variance
denominator is 0 (for example a constant series), and otherwise returns the
standard mean-centered Pearson coefficient of the two arrays. -/
theorem pearson_total_correct (x y : List ℝ) (hlen : x.length = y.length) :
    (x = [] → calculatePearsonCorrelation x y = 0) ∧
    (pearsonDenomSq x y = 0 → calculatePearsonCorrelation x y = 0) ∧
    (pearsonDenomSq x y ≠ 0 →
      calculatePearsonCorrelation x y = pearsonCentered x y) := by
  refine ⟨?_, ?_, ?_⟩
  · intro h
    subst h
    simp [calculatePearsonCorrelation]
  · intro hd
    by_cases hx : x.length = 0
    · simp [calculatePearsonCorrelation, hx]
    · rw [pearson_eq x y hx, hd, Real.sqrt_zero]
      simp
  · intro hd
    have hxe : x ≠ [] := by
      rintro rfl
      exact hd (by simp [pearsonDenomSq])
    have hx0 : x.length ≠ 0 := fun h => hxe (List.length_eq_zero.mp h)
    have hn : ((x.length : ℝ)) ≠ 0 := Nat.cast_ne_zero.mpr hx0
    have hnpos : (0 : ℝ) < (x.length : ℝ) := by
      exact_mod_cast Nat.pos_of_ne_zero hx0
    have hylen : ((y.length : ℝ)) = ((x.length : ℝ)) := by
      exact_mod_cast hlen.symm
    have hA : (x.length : ℝ) * (x.map (fun v => v * v)).sum -
        x.sum * x.sum = (x.length : ℝ) *
          (x.map (fun v => (v - x.sum / (x.length : ℝ)) *
            (v - x.sum / (x.length : ℝ)))).sum := by
      rw [sum_map_sub_sq]
      field_simp
      ring
    have hB : (x.length : ℝ) * (y.map (fun v => v * v)).sum -
        y.sum * y.sum = (x.length : ℝ) *
          (y.map (fun v => (v - y.sum / (x.length : ℝ)) *
            (v - y.sum / (x.length : ℝ)))).sum := by
      rw [sum_map_sub_sq, hylen]
      field_simp
      ring
    have hC : (x.length : ℝ) * ((x.zip y).map (fun p => p.1 * p.2)).sum -
        x.sum * y.sum = (x.length : ℝ) *
          ((x.zip y).map (fun p => (p.1 - x.sum / (x.length : ℝ)) *
            (p.2 - y.sum / (x.length : ℝ)))).sum := by
      rw [sum_zip_map_sub _ _ x y hlen]
      field_simp
      ring
    have hDS : pearsonDenomSq x y =
        ((x.length : ℝ) * (x.length : ℝ)) *
          ((x.map (fun v => (v - x.sum / (x.length : ℝ)) *
              (v - x.sum / (x.length : ℝ)))).sum *
            (y.map (fun v => (v - y.sum / (x.length : ℝ)) *
              (v - y.sum / (x.length : ℝ)))).sum) := by
      unfold pearsonDenomSq
      rw [hA, hB]
      ring
    have hSA0 : 0 ≤ (x.map (fun v => (v - x.sum / (x.length : ℝ)) *
        (v - x.sum / (x.length : ℝ)))).sum := sum_sq_nonneg _ x
    have hSB0 : 0 ≤ (y.map (fun v => (v - y.sum / (x.length : ℝ)) *
        (v - y.sum / (x.length : ℝ)))).sum := sum_sq_nonneg _ y
    have hprod : (x.map (fun v => (v - x.sum / (x.length : ℝ)) *
          (v - x.sum / (x.length : ℝ)))).sum *
        (y.map (fun v => (v - y.sum / (x.length : ℝ)) *
          (v - y.sum / (x.length : ℝ)))).sum ≠ 0 := by
      intro h0
      exact hd (by rw [hDS, h0, mul_zero])
    have hSA : (x.map (fun v => (v - x.sum / (x.length : ℝ)) *
        (v - x.sum / (x.length : ℝ)))).sum ≠ 0 := left_ne_zero_of_mul hprod
    have hSB : (y.map (fun v => (v - y.sum / (x.length : ℝ)) *
        (v - y.sum / (x.length : ℝ)))).sum ≠ 0 := right_ne_zero_of_mul hprod
    have hSApos := lt_of_le_of_ne hSA0 (Ne.symm hSA)
    have hSBpos := lt_of_le_of_ne hSB0 (Ne.symm hSB)
    have hsqrt : Real.sqrt (pearsonDenomSq x y) =
        (x.length : ℝ) *
          (Real.sqrt ((x.map (fun v => (v - x.sum / (x.length : ℝ)) *
              (v - x.sum / (x.length : ℝ)))).sum) *
            Real.sqrt ((y.map (fun v => (v - y.sum / (x.length : ℝ)) *
              (v - y.sum / (x.length : ℝ)))).sum)) := by
      rw [hDS, Real.sqrt_mul (mul_self_nonneg _),
        Real.sqrt_mul_self (le_of_lt hnpos), Real.sqrt_mul hSA0]
    have hne : Real.sqrt (pearsonDenomSq x y) ≠ 0 := by
      rw [hsqrt]
      exact ne_of_gt (mul_pos hnpos
        (mul_pos (Real.sqrt_pos.mpr hSApos) (Real.sqrt_pos.mpr hSBpos)))
    rw [pearson_eq x y hx0, if_neg hne, hC, hsqrt,
      mul_div_mul_left _ _ hn]
    rfl

/-- C10 witness: at x = y = [1, 2] the denominator is nonzero and the helper
equals the mean-centered coefficient. -/
theorem pearson_total_correct_witness :
    calculatePearsonCorrelation [1, 2] [1, 2] = pearsonCentered [1, 2] [1, 2] :=
  (pearson_total_correct [1, 2] [1, 2] rfl).2.2 (by
    simp only [pearsonDenomSq]
    norm_num)

end CityPulse
